import Mathlib

/-!
# Product catalog CRUD service: shallow embedding and verification

This file embeds the Product catalog service (Flask route handlers in
`service/routes.py`, together with the Product model layer that the routes
and tests use) into Lean 4 and proves the specification claims about it.

The route handlers are translated directly from `service/routes.py`.
The model layer (`service/models.py`) is not shipped in the repository
snapshot, only its tests and callers are; definitions for it are modelled
from the specification, and each such definition's doc comment says so.

Conventions of the embedding:
* Python `Decimal` prices are a mantissa/scale pair (value = mant / 10^scale).
* JSON-compatible mappings are association lists of `String × JVal`.
* Raising `DataValidationError` is `Except.error`; HTTP aborts are encoded
  in the returned `HResp` status; the database is an explicit `List Product`
  threaded through the handlers.
-/

/-- Modelled from the spec: the closed `Category` enumeration
("a fixed, closed set of labels (e.g. CLOTHS, FOOD, ...)").
`service/models.py` is absent from the snapshot; the labels evidenced by the
spec and the tests are `CLOTHS` and `FOOD`, and `UNKNOWN` is the default for
a freshly constructed Product. -/
inductive Category where
  | UNKNOWN
  | CLOTHS
  | FOOD
deriving DecidableEq, Repr

/-- The enumeration label text of a `Category` (Python `category.name`). -/
def Category.name : Category → String
  | .UNKNOWN => "UNKNOWN"
  | .CLOTHS => "CLOTHS"
  | .FOOD => "FOOD"

/-- A decimal-precision value: `mant / 10 ^ scale`.  This embeds Python's
`Decimal` as used for prices (`Decimal("12.50")` is `⟨1250, 2⟩`). -/
structure Decimal where
  mant : Int
  scale : Nat
deriving DecidableEq, Repr

/-- Two decimals denote the same numeric value (comparison "as decimal
values, not string formatting"). -/
def Decimal.valEq (a b : Decimal) : Prop :=
  a.mant * (10 : Int) ^ b.scale = b.mant * (10 : Int) ^ a.scale

/-- Little-endian base-10 digits, with an explicit recursion budget (the
budget `n` always suffices for the number `n`, see `toDigitsLE`). -/
def toDigitsLEAux : Nat → Nat → List Nat
  | _, 0 => []
  | 0, _ + 1 => []
  | fuel + 1, n + 1 => ((n + 1) % 10) :: toDigitsLEAux fuel ((n + 1) / 10)

/-- Little-endian base-10 digits of a natural number (`0` has no digits). -/
def toDigitsLE (n : Nat) : List Nat := toDigitsLEAux n n

/-- Value of a little-endian base-10 digit list. -/
def fromDigitsLE : List Nat → Nat
  | [] => 0
  | d :: ds => d + 10 * fromDigitsLE ds

/-- Pad a little-endian digit list with leading zeros up to length `len`. -/
def padTo (len : Nat) (ds : List Nat) : List Nat :=
  ds ++ List.replicate (len - ds.length) 0

/-- The character for one decimal digit (48 is the code of `'0'`). -/
def digitChar (d : Nat) : Char := Char.ofNat (48 + d % 10)

/-- Parse one decimal digit character back to its value. -/
def charToDigit (c : Char) : Option Nat :=
  if '0' ≤ c ∧ c ≤ '9' then some (c.toNat - 48) else none

/-- Modelled from the spec: `price` "is emitted as a decimal-formatted
string" / "stored and serialized as a fixed-point string" (Python
`str(Decimal)` for fixed-point values): optional `-` sign, the integer
digits (at least one), and, when `scale > 0`, a point followed by exactly
`scale` fractional digits. -/
def serializeDecimal (d : Decimal) : String :=
  let ds := padTo (d.scale + 1) (toDigitsLE d.mant.natAbs)
  let intPart := (ds.drop d.scale).reverse.map digitChar
  let fracPart := (ds.take d.scale).reverse.map digitChar
  let digitsStr := if d.scale = 0 then intPart else intPart ++ ('.' :: fracPart)
  String.mk (if d.mant < 0 then '-' :: digitsStr else digitsStr)

/-- Strip one leading minus sign, reporting whether it was present. -/
def stripNeg (cs : List Char) : Bool × List Char :=
  match cs with
  | c :: rest => if c = '-' then (true, rest) else (false, cs)
  | [] => (false, [])

/-- Split a character list at the first `'.'` (the point itself dropped);
`none` as second component when there is no point. -/
def splitOnDot : List Char → List Char × Option (List Char)
  | [] => ([], none)
  | c :: rest =>
    if c = '.' then ([], some rest)
    else
      let (a, b) := splitOnDot rest
      (c :: a, b)

/-- Parse a list of decimal digit characters, failing on any non-digit. -/
def parseDigits : List Char → Option (List Nat)
  | [] => some []
  | c :: cs =>
    match charToDigit c, parseDigits cs with
    | some d, some ds => some (d :: ds)
    | _, _ => none

/-- Apply a sign flag to a natural-number magnitude. -/
def condNeg (neg : Bool) (n : Nat) : Int :=
  if neg then -(n : Int) else (n : Int)

/-- The sign-free part of `parseDecimal`: at least one integer digit and
an optional point followed by at least one fractional digit. -/
def parseDecimalCore (neg : Bool) (cs : List Char) : Option Decimal :=
  let (intCs, fracPart) := splitOnDot cs
  match fracPart with
  | none =>
    match parseDigits intCs with
    | some ids =>
      if intCs.isEmpty then none
      else some ⟨condNeg neg (fromDigitsLE ids.reverse), 0⟩
    | none => none
  | some fracCs =>
    match parseDigits intCs, parseDigits fracCs with
    | some ids, some fds =>
      if intCs.isEmpty ∨ fracCs.isEmpty then none
      else some ⟨condNeg neg (fromDigitsLE (ids ++ fds).reverse), fracCs.length⟩
    | _, _ => none

/-- Modelled from the spec: parsing a price string back into a decimal
value (`deserialize` fails "when `price` cannot be parsed as a decimal
value").  Accepts an optional sign, at least one integer digit, and an
optional point followed by at least one fractional digit. -/
def parseDecimal (s : String) : Option Decimal :=
  let (neg, cs) := stripNeg s.toList
  parseDecimalCore neg cs

/-- JSON-compatible values appearing in a serialized Product mapping. -/
inductive JVal where
  | jstr (s : String)
  | jbool (b : Bool)
  | jnum (n : Nat)
  | jnull
deriving DecidableEq, Repr

/-- Key lookup in a JSON-compatible mapping (Python `data[key]` presence). -/
def getVal (data : List (String × JVal)) (key : String) : Option JVal :=
  match data with
  | [] => none
  | (k, v) :: rest => if k = key then some v else getVal rest key

/-- Modelled from the spec: the `Product` entity (`id` integer surrogate
key, `None` before persistence; `name`, `description` text; `price`
decimal; `available` boolean; `category` an enumeration member). -/
structure Product where
  id : Option Nat
  name : String
  description : String
  price : Decimal
  available : Bool
  category : Category
deriving DecidableEq, Repr

/-- Modelled from the spec: a freshly constructed `Product()` ("created in
memory (all fields unset or defaulted)"): no id, empty texts, zero price,
unavailable, `UNKNOWN` category. -/
def Product.new : Product :=
  { id := none, name := "", description := "", price := ⟨0, 0⟩,
    available := false, category := .UNKNOWN }

/-- Lower-case ASCII letters in a character (for case-insensitive lookups). -/
def upChar (c : Char) : Char :=
  if 'a' ≤ c ∧ c ≤ 'z' then Char.ofNat (c.toNat - 32) else c

/-- Upper-case ASCII letters in a character. -/
def downChar (c : Char) : Char :=
  if 'A' ≤ c ∧ c ≤ 'Z' then Char.ofNat (c.toNat + 32) else c

/-- ASCII upper-casing of a string (Python `str.upper()` on ASCII input). -/
def upperStr (s : String) : String :=
  String.mk (s.toList.map upChar)

/-- ASCII lower-casing of a string (Python `str.lower()` on ASCII input). -/
def lowerStr (s : String) : String :=
  String.mk (s.toList.map downChar)

/-- Modelled from the spec: resolving a category label to an enumeration
member, upper-casing first (`getattr(Category, value.upper())` in
`routes.py`; for `deserialize`, "case-insensitive match acceptable,
mirroring the lookup used for query filtering").  `none` when the label
matches no declared member. -/
def parseCategoryName (s : String) : Option Category :=
  if upperStr s = "UNKNOWN" then some .UNKNOWN
  else if upperStr s = "CLOTHS" then some .CLOTHS
  else if upperStr s = "FOOD" then some .FOOD
  else none

/-- Modelled from the spec: `serialize()` "produces a mapping with keys
`id, name, description, price, available, category`; `price` is emitted as
a decimal-formatted string ...; `category` is emitted as its enumeration
label text" (tests: `data["price"] == str(product.price)`,
`data["category"] == product.category.name`). -/
def Product.serialize (p : Product) : List (String × JVal) :=
  [ ("id", match p.id with | some n => JVal.jnum n | none => JVal.jnull),
    ("name", JVal.jstr p.name),
    ("description", JVal.jstr p.description),
    ("price", JVal.jstr (serializeDecimal p.price)),
    ("available", JVal.jbool p.available),
    ("category", JVal.jstr p.category.name) ]

/-- Fetch a required field that must be a string. -/
def reqStr (data : List (String × JVal)) (key : String) : Except String String :=
  match getVal data key with
  | some (JVal.jstr s) => .ok s
  | some _ => .error ("Invalid product: wrong type for " ++ key)
  | none => .error ("Invalid product: missing " ++ key)

/-- Fetch a required boolean field; a non-boolean value (such as the string
`"yes"`) is a validation error, never coerced by truthiness. -/
def reqBool (data : List (String × JVal)) (key : String) : Except String Bool :=
  match getVal data key with
  | some (JVal.jbool b) => .ok b
  | some _ => .error ("Invalid type for boolean [" ++ key ++ "]")
  | none => .error ("Invalid product: missing " ++ key)

/-- Modelled from the spec: `deserialize(data)` populates all fields from
the mapping and "fails with a validation error ... when a required key
(`name`, `description`, `price`, `available`, `category`) is absent,
`available` is not a genuine boolean ..., `category` does not match a
declared enumeration label ..., `price` cannot be parsed as a decimal
value.  On success, populates all fields on the target instance in place;
never assigns `id` from the payload."  Failure returns `Except.error`
(the `DataValidationError` message) and yields no product, so the target
is never partially mutated. -/
def Product.deserialize (p : Product) (data : List (String × JVal)) :
    Except String Product :=
  match reqStr data "name" with
  | .error e => .error e
  | .ok nm =>
    match reqStr data "description" with
    | .error e => .error e
    | .ok ds =>
      match reqStr data "price" with
      | .error e => .error e
      | .ok pr =>
        match parseDecimal pr with
        | none => .error "Invalid product: price is not a decimal"
        | some price =>
          match reqBool data "available" with
          | .error e => .error e
          | .ok av =>
            match reqStr data "category" with
            | .error e => .error e
            | .ok ct =>
              match parseCategoryName ct with
              | none => .error "Invalid product: unknown category"
              | some cat =>
                .ok { p with name := nm, description := ds, price := price,
                             available := av, category := cat }

/-- An HTTP response body in this service: empty (DELETE), an error
object with a `message`, a single serialized Product, or a JSON array of
serialized Products. -/
inductive RespBody where
  | empty
  | msg (s : String)
  | obj (m : List (String × JVal))
  | arr (l : List (List (String × JVal)))
deriving DecidableEq, Repr

/-- An HTTP response: status code and body. -/
structure HResp where
  status : Nat
  body : RespBody
deriving DecidableEq, Repr

/-- Modelled from the spec: `find(id)` "returns the Product with that
`id`, or an absent/empty result if none exists.  Must not raise for a
missing record."  The database is the explicit list of persisted rows. -/
def find (db : List Product) (pid : Nat) : Option Product :=
  db.find? (fun p => p.id = some pid)

/-- Modelled from the spec: `delete()` "removes the row matching `id`". -/
def deleteRow (db : List Product) (pid : Nat) : List Product :=
  db.filter (fun p => ¬ p.id = some pid)

/-- Modelled from the spec: `update()` "persists current field values to
the matching row" (keyed by `id`). -/
def updateRow (db : List Product) (q : Product) : List Product :=
  db.map (fun p => if p.id = q.id then q else p)

/-- Modelled from the spec: the store assigns a fresh surrogate key on
`create()` (one larger than any key in use). -/
def nextId (db : List Product) : Nat :=
  (db.map (fun p => (p.id.getD 0) + 1)).foldr max 1

/-- Modelled from the spec: `find_by_name(name)` is a "case-sensitive
exact match" returning all matching rows. -/
def findByName (db : List Product) (nm : String) : List Product :=
  db.filter (fun p => p.name = nm)

/-- Modelled from the spec: `find_by_category(category)` is an "exact
match on the enumeration value". -/
def findByCategory (db : List Product) (c : Category) : List Product :=
  db.filter (fun p => p.category = c)

/-- Modelled from the spec: `find_by_availability(flag)` is an "exact
match on boolean". -/
def findByAvailability (db : List Product) (b : Bool) : List Product :=
  db.filter (fun p => p.available = b)

/-- `check_content_type("application/json")` from `routes.py`: `some 415`
(abort) when the `Content-Type` header is absent or differs from the
expected string, `none` (no abort) otherwise. -/
def checkContentType (hdr : Option String) : Option Nat :=
  match hdr with
  | none => some 415
  | some ct => if ct ≠ "application/json" then some 415 else none

/-- `GET /products/<id>` (`get_product` in `routes.py`): 404 with a
"was not found" message when `find` is absent, else 200 with the
serialized Product. -/
def getProduct (db : List Product) (pid : Nat) : HResp :=
  match find db pid with
  | none => ⟨404, .msg ("Product with id '" ++ toString pid ++ "' was not found.")⟩
  | some p => ⟨200, .obj p.serialize⟩

/-- `POST /products` (`create_products` in `routes.py`): content-type
check, deserialize into a fresh Product, `create()` (the store assigns the
id), 201 with the serialized result.  A `DataValidationError` surfaces as
400 (spec §7).  Returns the response and the resulting database. -/
def createProducts (hdr : Option String) (body : List (String × JVal))
    (db : List Product) : HResp × List Product :=
  match checkContentType hdr with
  | some s => (⟨s, .msg "Content-Type must be application/json"⟩, db)
  | none =>
    match Product.deserialize Product.new body with
    | .error e => (⟨400, .msg e⟩, db)
    | .ok p =>
      let p' := { p with id := some (nextId db) }
      (⟨201, .obj p'.serialize⟩, db ++ [p'])

/-- `PUT /products/<id>` (`update_products` in `routes.py`): content-type
check; 404 when `find` is absent; else deserialize the body over the found
Product, reassign `product.id = product_id` from the path, persist via
`update()`, and answer 200 with the serialized result. -/
def updateProducts (hdr : Option String) (body : List (String × JVal))
    (db : List Product) (pid : Nat) : HResp × List Product :=
  match checkContentType hdr with
  | some s => (⟨s, .msg "Content-Type must be application/json"⟩, db)
  | none =>
    match find db pid with
    | none =>
      (⟨404, .msg ("Product with id '" ++ toString pid ++ "' was not found.")⟩, db)
    | some p =>
      match Product.deserialize p body with
      | .error e => (⟨400, .msg e⟩, db)
      | .ok q =>
        let q' := { q with id := some pid }
        (⟨200, .obj q'.serialize⟩, updateRow db q')

/-- `DELETE /products/<id>` (`delete_products` in `routes.py`): `find`,
delete the row when present, and answer 204 with an empty body either
way. -/
def deleteProducts (db : List Product) (pid : Nat) : HResp × List Product :=
  match find db pid with
  | some _ => (⟨204, .empty⟩, deleteRow db pid)
  | none => (⟨204, .empty⟩, db)

/-- Python truthiness of an optional query-string parameter: present and
non-empty (`if name:` in `routes.py`). -/
def truthy : Option String → Bool
  | none => false
  | some s => ¬ s = ""

/-- The availability query parameter parse in `list_products`:
`available.lower() in ["true", "yes", "1"]`. -/
def parseAvailableParam (s : String) : Bool :=
  lowerStr s = "true" ∨ lowerStr s = "yes" ∨ lowerStr s = "1"

/-- The category branch of `list_products`: `getattr(Category,
category.upper())` raising `AttributeError` becomes the `none` case of
`parseCategoryName`, which the handler turns into 400. -/
def categoryResp (db : List Product) (s : String) : HResp :=
  match parseCategoryName s with
  | some c => ⟨200, .arr ((findByCategory db c).map Product.serialize)⟩
  | none => ⟨400, .msg ("Invalid category: " ++ s)⟩

/-- `GET /products` (`list_products` in `routes.py`): at most one filter,
tried in the order name, category, available; otherwise all products. -/
def listProducts (name category available : Option String)
    (db : List Product) : HResp :=
  if truthy name then
    ⟨200, .arr ((findByName db (name.getD "")).map Product.serialize)⟩
  else if truthy category then
    categoryResp db (category.getD "")
  else if truthy available then
    ⟨200, .arr ((findByAvailability db
      (parseAvailableParam (available.getD ""))).map Product.serialize)⟩
  else
    ⟨200, .arr (db.map Product.serialize)⟩

/-- `needle` occurs contiguously inside `hay`. -/
def containsSub (hay needle : List Char) : Prop :=
  ∃ pre post, hay = pre ++ needle ++ post

/-- The five required keys of a serialized Product mapping. -/
def requiredKeys : List String :=
  ["name", "description", "price", "available", "category"]

/-! ## Decimal string round-trip -/

lemma fromDigitsLE_toDigitsLEAux :
    ∀ fuel n, n ≤ fuel → fromDigitsLE (toDigitsLEAux fuel n) = n := by
  intro fuel
  induction fuel with
  | zero =>
    intro n hn
    interval_cases n
    rfl
  | succ f ih =>
    intro n hn
    match n with
    | 0 => rfl
    | m + 1 =>
      have hd : (m + 1) / 10 ≤ f := by
        have h1 : (m + 1) / 10 < m + 1 := Nat.div_lt_self (Nat.succ_pos m) (by norm_num)
        omega
      simp only [toDigitsLEAux, fromDigitsLE, ih _ hd]
      omega

lemma fromDigitsLE_toDigitsLE (n : Nat) : fromDigitsLE (toDigitsLE n) = n :=
  fromDigitsLE_toDigitsLEAux n n (Nat.le_refl n)

lemma toDigitsLEAux_lt_ten :
    ∀ fuel n, ∀ d ∈ toDigitsLEAux fuel n, d < 10 := by
  intro fuel
  induction fuel with
  | zero =>
    intro n d hd
    cases n <;> simp [toDigitsLEAux] at hd
  | succ f ih =>
    intro n d hd
    match n with
    | 0 => simp [toDigitsLEAux] at hd
    | m + 1 =>
      simp only [toDigitsLEAux, List.mem_cons] at hd
      rcases hd with h | h
      · omega
      · exact ih _ d h

lemma padTo_lt_ten (len : Nat) (n : Nat) :
    ∀ d ∈ padTo len (toDigitsLE n), d < 10 := by
  intro d hd
  simp only [padTo, List.mem_append, List.mem_replicate] at hd
  rcases hd with h | h
  · exact toDigitsLEAux_lt_ten n n d h
  · omega

lemma length_padTo (len : Nat) (ds : List Nat) :
    len ≤ (padTo len ds).length := by
  simp only [padTo, List.length_append, List.length_replicate]
  omega

lemma fromDigitsLE_append_zeros (xs : List Nat) (k : Nat) :
    fromDigitsLE (xs ++ List.replicate k 0) = fromDigitsLE xs := by
  induction xs with
  | nil =>
    simp only [List.nil_append]
    induction k with
    | zero => rfl
    | succ m ihm => simpa [List.replicate_succ, fromDigitsLE] using ihm
  | cons d ds ih => simp [fromDigitsLE, ih]

lemma fromDigitsLE_padTo (len : Nat) (n : Nat) :
    fromDigitsLE (padTo len (toDigitsLE n)) = n := by
  simp [padTo, fromDigitsLE_append_zeros, fromDigitsLE_toDigitsLE]

lemma charToDigit_digitChar {d : Nat} (h : d < 10) :
    charToDigit (digitChar d) = some d := by
  unfold digitChar
  rw [Nat.mod_eq_of_lt h]
  interval_cases d <;> decide

lemma digitChar_ne_dot (d : Nat) : digitChar d ≠ '.' := by
  have h : d % 10 < 10 := Nat.mod_lt _ (by norm_num)
  unfold digitChar
  generalize d % 10 = m at h ⊢
  interval_cases m <;> decide

lemma digitChar_ne_neg (d : Nat) : digitChar d ≠ '-' := by
  have h : d % 10 < 10 := Nat.mod_lt _ (by norm_num)
  unfold digitChar
  generalize d % 10 = m at h ⊢
  interval_cases m <;> decide

lemma parseDigits_map_digitChar :
    ∀ ds : List Nat, (∀ d ∈ ds, d < 10) →
      parseDigits (ds.map digitChar) = some ds := by
  intro ds
  induction ds with
  | nil => intro _; rfl
  | cons d rest ih =>
    intro h
    have hd : d < 10 := h d (List.mem_cons_self d rest)
    have hrest := ih (fun x hx => h x (List.mem_cons_of_mem d hx))
    simp [parseDigits, charToDigit_digitChar hd, hrest]

lemma stripNeg_cons_ne {c : Char} (h : c ≠ '-') (cs : List Char) :
    stripNeg (c :: cs) = (false, c :: cs) := by
  simp [stripNeg, h]

lemma splitOnDot_no_dot :
    ∀ cs : List Char, (∀ c ∈ cs, c ≠ '.') → splitOnDot cs = (cs, none) := by
  intro cs
  induction cs with
  | nil => intro _; rfl
  | cons c rest ih =>
    intro h
    have hc : c ≠ '.' := h c (List.mem_cons_self c rest)
    have hrest := ih (fun x hx => h x (List.mem_cons_of_mem c hx))
    simp [splitOnDot, hc, hrest]

lemma splitOnDot_append_dot :
    ∀ (as bs : List Char), (∀ c ∈ as, c ≠ '.') →
      splitOnDot (as ++ '.' :: bs) = (as, some bs) := by
  intro as bs
  induction as with
  | nil => intro _; simp [splitOnDot]
  | cons c rest ih =>
    intro h
    have hc : c ≠ '.' := h c (List.mem_cons_self c rest)
    have hrest := ih (fun x hx => h x (List.mem_cons_of_mem c hx))
    simp [splitOnDot, hc, hrest]

lemma toList_mk (l : List Char) : (String.mk l).toList = l := rfl

lemma parseDecimalCore_digits (neg : Bool) (ds : List Nat) (s : Nat)
    (hdig : ∀ x ∈ ds, x < 10) (hlen : s + 1 ≤ ds.length) :
    parseDecimalCore neg
      (if s = 0 then (ds.drop s).reverse.map digitChar
       else (ds.drop s).reverse.map digitChar ++
            '.' :: (ds.take s).reverse.map digitChar)
      = some ⟨condNeg neg (fromDigitsLE ds), s⟩ := by
  have hA : ∀ x ∈ (ds.drop s).reverse, x < 10 := fun x hx =>
    hdig x (List.mem_of_mem_drop (List.mem_reverse.mp hx))
  have hB : ∀ x ∈ (ds.take s).reverse, x < 10 := fun x hx =>
    hdig x (List.mem_of_mem_take (List.mem_reverse.mp hx))
  have hAne : (ds.drop s).reverse ≠ [] := by
    intro hcontra
    have := congrArg List.length hcontra
    simp only [List.length_reverse, List.length_drop, List.length_nil] at this
    omega
  have hAdot : ∀ c ∈ (ds.drop s).reverse.map digitChar, c ≠ '.' := by
    intro c hc
    obtain ⟨x, _, rfl⟩ := List.mem_map.mp hc
    exact digitChar_ne_dot x
  have hparseA := parseDigits_map_digitChar _ hA
  have hparseB := parseDigits_map_digitChar _ hB
  obtain ⟨a, A2, hAc⟩ := List.exists_cons_of_ne_nil hAne
  have hieA : ((ds.drop s).reverse.map digitChar).isEmpty = false := by
    rw [hAc, List.map_cons]; rfl
  by_cases hs : s = 0
  · subst hs
    rw [if_pos rfl]
    simp only [parseDecimalCore]
    rw [splitOnDot_no_dot _ hAdot]
    simp only [hparseA, hieA, Bool.false_eq_true, if_false]
    simp only [List.drop_zero, List.reverse_reverse]
  · rw [if_neg hs]
    simp only [parseDecimalCore]
    rw [splitOnDot_append_dot _ _ hAdot]
    have hBne : (ds.take s).reverse ≠ [] := by
      intro hcontra
      have := congrArg List.length hcontra
      simp only [List.length_reverse, List.length_take, List.length_nil] at this
      omega
    obtain ⟨b, B2, hBc⟩ := List.exists_cons_of_ne_nil hBne
    have hieB : ((ds.take s).reverse.map digitChar).isEmpty = false := by
      rw [hBc, List.map_cons]; rfl
    have hBlen : ((ds.take s).reverse.map digitChar).length = s := by
      simp only [List.length_map, List.length_reverse, List.length_take]
      omega
    simp only [hparseA, hparseB, hieA, hieB, Bool.false_eq_true, or_self, if_false]
    rw [hBlen]
    have hmant : ((ds.drop s).reverse ++ (ds.take s).reverse).reverse = ds := by
      rw [List.reverse_append, List.reverse_reverse, List.reverse_reverse,
        List.take_append_drop]
    rw [hmant]

lemma parseDecimal_neg_cons (cs : List Char) :
    parseDecimal (String.mk ('-' :: cs)) = parseDecimalCore true cs := by
  simp [parseDecimal, stripNeg, toList_mk]

lemma parseDecimal_cons_ne {c : Char} (h : c ≠ '-') (cs : List Char) :
    parseDecimal (String.mk (c :: cs)) = parseDecimalCore false (c :: cs) := by
  simp [parseDecimal, toList_mk, stripNeg, h]

theorem parse_serializeDecimal (d : Decimal) :
    parseDecimal (serializeDecimal d) = some d := by
  obtain ⟨mant, s⟩ := d
  have hdig : ∀ x ∈ padTo (s + 1) (toDigitsLE mant.natAbs), x < 10 :=
    padTo_lt_ten (s + 1) mant.natAbs
  have hlen : s + 1 ≤ (padTo (s + 1) (toDigitsLE mant.natAbs)).length :=
    length_padTo (s + 1) (toDigitsLE mant.natAbs)
  have hAne : ((padTo (s + 1) (toDigitsLE mant.natAbs)).drop s).reverse ≠ [] := by
    intro hcontra
    have := congrArg List.length hcontra
    simp only [List.length_reverse, List.length_drop, List.length_nil] at this
    omega
  obtain ⟨a, A2, hAc⟩ := List.exists_cons_of_ne_nil hAne
  have hshape :
      (if s = 0 then
        ((padTo (s + 1) (toDigitsLE mant.natAbs)).drop s).reverse.map digitChar
       else
        ((padTo (s + 1) (toDigitsLE mant.natAbs)).drop s).reverse.map digitChar ++
          '.' :: ((padTo (s + 1) (toDigitsLE mant.natAbs)).take s).reverse.map digitChar)
      = digitChar a ::
        (if s = 0 then A2.map digitChar
         else A2.map digitChar ++
           '.' :: ((padTo (s + 1) (toDigitsLE mant.natAbs)).take s).reverse.map digitChar) := by
    rw [hAc]
    by_cases hs : s = 0 <;> simp [hs]
  have hcore := parseDecimalCore_digits true
    (padTo (s + 1) (toDigitsLE mant.natAbs)) s hdig hlen
  have hcoreF := parseDecimalCore_digits false
    (padTo (s + 1) (toDigitsLE mant.natAbs)) s hdig hlen
  simp only [serializeDecimal]
  by_cases hneg : mant < 0
  · rw [if_pos hneg, parseDecimal_neg_cons, hcore, fromDigitsLE_padTo]
    have hcn : condNeg true mant.natAbs = -(mant.natAbs : Int) := rfl
    have : condNeg true mant.natAbs = mant := by rw [hcn]; omega
    rw [this]
  · rw [if_neg hneg, hshape, parseDecimal_cons_ne (digitChar_ne_neg a), ← hshape,
      hcoreF, fromDigitsLE_padTo]
    have hcn : condNeg false mant.natAbs = (mant.natAbs : Int) := rfl
    have : condNeg false mant.natAbs = mant := by rw [hcn]; omega
    rw [this]

lemma parseCategoryName_name (c : Category) : parseCategoryName c.name = some c := by
  cases c <;> decide

lemma reqStr_serialize_name (x : Product) :
    reqStr x.serialize "name" = .ok x.name := by
  simp [Product.serialize, reqStr, getVal]

lemma reqStr_serialize_description (x : Product) :
    reqStr x.serialize "description" = .ok x.description := by
  simp [Product.serialize, reqStr, getVal]

lemma reqStr_serialize_price (x : Product) :
    reqStr x.serialize "price" = .ok (serializeDecimal x.price) := by
  simp [Product.serialize, reqStr, getVal]

lemma reqBool_serialize_available (x : Product) :
    reqBool x.serialize "available" = .ok x.available := by
  simp [Product.serialize, reqBool, getVal]

lemma reqStr_serialize_category (x : Product) :
    reqStr x.serialize "category" = .ok x.category.name := by
  simp [Product.serialize, reqStr, getVal]

/-- C1: deserializing the mapping produced by `serialize` into a fresh
Product reproduces `name`, `description`, `price`, `available` and
`category` exactly; in particular the price survives the string round
trip as the same decimal value.  (The claim restricts itself to valid
Products; the theorem needs no such restriction, so it covers them.) -/
theorem deserialize_serialize_roundtrip (x : Product) :
    Product.deserialize Product.new x.serialize =
      .ok { Product.new with
            name := x.name, description := x.description,
            price := x.price, available := x.available,
            category := x.category } := by
  simp only [Product.deserialize, reqStr_serialize_name,
    reqStr_serialize_description, reqStr_serialize_price,
    parse_serializeDecimal, reqBool_serialize_available,
    reqStr_serialize_category, parseCategoryName_name]

lemma reqStr_ok {data : List (String × JVal)} {k s} (h : reqStr data k = .ok s) :
    getVal data k = some (.jstr s) := by
  unfold reqStr at h
  split at h <;> simp_all

lemma reqBool_ok {data : List (String × JVal)} {k b} (h : reqBool data k = .ok b) :
    getVal data k = some (.jbool b) := by
  unfold reqBool at h
  split at h <;> simp_all

lemma deserialize_ok_shape {p q : Product} {data : List (String × JVal)}
    (h : Product.deserialize p data = .ok q) :
    getVal data "name" ≠ none ∧ getVal data "description" ≠ none ∧
    getVal data "price" ≠ none ∧
    (∃ b, getVal data "available" = some (.jbool b)) ∧
    getVal data "category" ≠ none := by
  cases hname : reqStr data "name" with
  | error e => simp [Product.deserialize, hname] at h
  | ok nm =>
  cases hdesc : reqStr data "description" with
  | error e => simp [Product.deserialize, hname, hdesc] at h
  | ok dsc =>
  cases hprice : reqStr data "price" with
  | error e => simp [Product.deserialize, hname, hdesc, hprice] at h
  | ok pr =>
  cases hpd : parseDecimal pr with
  | none => simp [Product.deserialize, hname, hdesc, hprice, hpd] at h
  | some price =>
  cases havail : reqBool data "available" with
  | error e => simp [Product.deserialize, hname, hdesc, hprice, hpd, havail] at h
  | ok av =>
  cases hcat : reqStr data "category" with
  | error e =>
    simp [Product.deserialize, hname, hdesc, hprice, hpd, havail, hcat] at h
  | ok ct =>
    refine ⟨?_, ?_, ?_, ⟨av, reqBool_ok havail⟩, ?_⟩ <;>
      simp [reqStr_ok hname, reqStr_ok hdesc, reqStr_ok hprice, reqStr_ok hcat]

/-- C2: deserializing a mapping that lacks at least one required key
(`name`, `description`, `price`, `available`, `category`) raises a
validation error.  In this pure embedding `deserialize` returns the
populated product only on success, so an error leaves every field of the
target unchanged — there is no partial mutation on failure. -/
theorem deserialize_missing_required_key_errors (p : Product)
    (data : List (String × JVal))
    (h : ∃ k ∈ requiredKeys, getVal data k = none) :
    ∃ e, Product.deserialize p data = Except.error e := by
  cases hdes : Product.deserialize p data with
  | error e => exact ⟨e, rfl⟩
  | ok q =>
    exfalso
    obtain ⟨k, hk, hnone⟩ := h
    obtain ⟨h1, h2, h3, ⟨b, h4⟩, h5⟩ := deserialize_ok_shape hdes
    simp only [requiredKeys, List.mem_cons, List.not_mem_nil, or_false] at hk
    rcases hk with rfl | rfl | rfl | rfl | rfl
    · exact h1 hnone
    · exact h2 hnone
    · exact h3 hnone
    · rw [hnone] at h4; cases h4
    · exact h5 hnone

/-- Witness for C2 at the spec's example `{"name": "Test"}`: the
`description` key is absent and deserialization errors. -/
theorem deserialize_missing_required_key_errors_witness :
    (∃ k ∈ requiredKeys, getVal [("name", JVal.jstr "Test")] k = none) ∧
    ∃ e, Product.deserialize Product.new [("name", JVal.jstr "Test")]
        = Except.error e :=
  ⟨by decide,
   deserialize_missing_required_key_errors Product.new
     [("name", JVal.jstr "Test")] (by decide)⟩

/-- C3: deserializing a mapping whose `available` value is not a genuine
boolean raises a validation error; the value is never coerced by
truthiness. -/
theorem deserialize_nonbool_available_errors (p : Product)
    (data : List (String × JVal)) (v : JVal)
    (hv : getVal data "available" = some v)
    (hnb : ∀ b : Bool, v ≠ JVal.jbool b) :
    ∃ e, Product.deserialize p data = Except.error e := by
  cases hdes : Product.deserialize p data with
  | error e => exact ⟨e, rfl⟩
  | ok q =>
    exfalso
    obtain ⟨_, _, _, ⟨b, hb⟩, _⟩ := deserialize_ok_shape hdes
    rw [hv] at hb
    exact hnb b (Option.some_injective _ hb)

/-- Witness for C3 at the tests' `bad_data` mapping, whose `available`
value is the string `"yes"`. -/
theorem deserialize_nonbool_available_errors_witness :
    (getVal [("name", JVal.jstr "Test"), ("description", JVal.jstr "Bad"),
             ("price", JVal.jstr "10.00"), ("available", JVal.jstr "yes"),
             ("category", JVal.jstr "FOOD")] "available"
        = some (JVal.jstr "yes") ∧
     (∀ b : Bool, JVal.jstr "yes" ≠ JVal.jbool b)) ∧
    ∃ e, Product.deserialize Product.new
        [("name", JVal.jstr "Test"), ("description", JVal.jstr "Bad"),
         ("price", JVal.jstr "10.00"), ("available", JVal.jstr "yes"),
         ("category", JVal.jstr "FOOD")] = Except.error e :=
  ⟨⟨by decide, by decide⟩,
   deserialize_nonbool_available_errors Product.new
     [("name", JVal.jstr "Test"), ("description", JVal.jstr "Bad"),
      ("price", JVal.jstr "10.00"), ("available", JVal.jstr "yes"),
      ("category", JVal.jstr "FOOD")] (JVal.jstr "yes") (by decide) (by decide)⟩

lemma toList_append (a b : String) : (a ++ b).toList = a.toList ++ b.toList := by
  cases a
  cases b
  rfl

lemma find_eq_none {db : List Product} {pid : Nat}
    (h : ∀ p ∈ db, p.id ≠ some pid) : find db pid = none := by
  rw [find, List.find?_eq_none]
  intro x hx
  simpa using h x hx

lemma find_none_mem {db : List Product} {pid : Nat}
    (h : find db pid = none) : ∀ p ∈ db, p.id ≠ some pid := by
  rw [find, List.find?_eq_none] at h
  intro p hp
  simpa using h p hp

lemma deleteRow_not_mem (db : List Product) (pid : Nat) :
    ∀ p ∈ deleteRow db pid, p.id ≠ some pid := by
  intro p hp
  have := (List.mem_filter.mp hp).2
  simpa using this

/-- C8: when no product has the requested id, `GET /products/{id}` answers
404 with a message that contains both the missing id and the text
"was not found", and the underlying `find` returns an absent result (it is
a total function returning `Option`, so it cannot raise). -/
theorem get_product_not_found (db : List Product) (pid : Nat)
    (h : ∀ p ∈ db, p.id ≠ some pid) :
    find db pid = none ∧
    getProduct db pid =
      ⟨404, .msg ("Product with id '" ++ toString pid ++ "' was not found.")⟩ ∧
    containsSub
      ("Product with id '" ++ toString pid ++ "' was not found.").toList
      "was not found".toList ∧
    containsSub
      ("Product with id '" ++ toString pid ++ "' was not found.").toList
      (toString pid).toList := by
  have hf : find db pid = none := find_eq_none h
  refine ⟨hf, by simp [getProduct, hf], ?_, ?_⟩
  · refine ⟨"Product with id '".toList ++ (toString pid).toList ++ "' ".toList,
      ".".toList, ?_⟩
    simp only [toList_append, List.append_assoc]
    congr 2
  · exact ⟨"Product with id '".toList, "' was not found.".toList,
      by simp only [toList_append, List.append_assoc]⟩

/-- Witness for C8 at the spec's scenario `GET /products/0` on an empty
database. -/
theorem get_product_not_found_witness :
    (∀ p ∈ ([] : List Product), p.id ≠ some 0) ∧
    (find [] 0 = none ∧
     getProduct [] 0 =
       ⟨404, .msg ("Product with id '" ++ toString 0 ++ "' was not found.")⟩ ∧
     containsSub
       ("Product with id '" ++ toString 0 ++ "' was not found.").toList
       "was not found".toList ∧
     containsSub
       ("Product with id '" ++ toString 0 ++ "' was not found.").toList
       (toString 0).toList) :=
  ⟨by simp, get_product_not_found [] 0 (by simp)⟩

/-- C5: `DELETE /products/{id}` always answers 204 with an empty body,
whether or not the id exists; afterwards no row with that id remains, and
repeating the call yields 204 again on the unchanged database. -/
theorem delete_products_idempotent (db : List Product) (pid : Nat) :
    (deleteProducts db pid).1 = ⟨204, .empty⟩ ∧
    (∀ p ∈ (deleteProducts db pid).2, p.id ≠ some pid) ∧
    deleteProducts (deleteProducts db pid).2 pid =
      (⟨204, .empty⟩, (deleteProducts db pid).2) := by
  cases hf : find db pid with
  | none =>
    have hmem := find_none_mem hf
    refine ⟨by simp [deleteProducts, hf], ?_, by simp [deleteProducts, hf]⟩
    simpa [deleteProducts, hf] using hmem
  | some p =>
    have hmem := deleteRow_not_mem db pid
    have hf2 : find (deleteRow db pid) pid = none := find_eq_none hmem
    refine ⟨by simp [deleteProducts, hf], ?_,
      by simp [deleteProducts, hf, hf2]⟩
    simpa [deleteProducts, hf] using hmem

/-- C7: when the `Content-Type` header is absent or is not exactly the
string `"application/json"`, `POST /products` and `PUT /products/{id}`
answer 415 and the database is unchanged — the body is never deserialized
and nothing is persisted. -/
theorem wrong_content_type_415 (hdr : Option String)
    (body : List (String × JVal)) (db : List Product) (pid : Nat)
    (h : hdr ≠ some "application/json") :
    createProducts hdr body db =
      (⟨415, .msg "Content-Type must be application/json"⟩, db) ∧
    updateProducts hdr body db pid =
      (⟨415, .msg "Content-Type must be application/json"⟩, db) := by
  have hct : checkContentType hdr = some 415 := by
    cases hdr with
    | none => rfl
    | some ct =>
      have hne : ct ≠ "application/json" := fun hc => h (by rw [hc])
      simp [checkContentType, hne]
  exact ⟨by simp [createProducts, hct], by simp [updateProducts, hct]⟩

/-- Witness for C7 at the tests' wrong content type `plain/text`. -/
theorem wrong_content_type_415_witness :
    (some "plain/text" ≠ some "application/json") ∧
    (createProducts (some "plain/text") [] [] =
       (⟨415, .msg "Content-Type must be application/json"⟩, []) ∧
     updateProducts (some "plain/text") [] [] 0 =
       (⟨415, .msg "Content-Type must be application/json"⟩, [])) :=
  ⟨by decide, wrong_content_type_415 (some "plain/text") [] [] 0 (by decide)⟩

/-- C6: a `PUT /products/{id}` with JSON content type, an existing product
and a valid body deserializes the body over the found product, reassigns
the path id (any `id` in the body is silently ignored, because
`deserialize` never reads it and the handler overwrites `id` afterwards),
persists via `update()`, and answers 200 with the serialized result whose
`id` is the path id. -/
theorem update_product_path_id_wins (hdr : Option String)
    (body : List (String × JVal)) (db : List Product) (pid : Nat)
    (p q : Product)
    (hct : hdr = some "application/json")
    (hfind : find db pid = some p)
    (hdes : Product.deserialize p body = .ok q) :
    updateProducts hdr body db pid =
      (⟨200, .obj ({ q with id := some pid }).serialize⟩,
       updateRow db { q with id := some pid }) ∧
    ({ q with id := some pid }).id = some pid ∧
    getVal ({ q with id := some pid }).serialize "id" = some (.jnum pid) := by
  subst hct
  refine ⟨?_, rfl, by simp [Product.serialize, getVal]⟩
  have hck : checkContentType (some "application/json") = none := rfl
  simp [updateProducts, hck, hfind, hdes]

/-- Witness for C6: the body carries `id = 999` but the path id `1` wins. -/
theorem update_product_path_id_wins_witness :
    ((some "application/json" : Option String) = some "application/json" ∧
     find [⟨some 1, "Old", "old", ⟨1, 0⟩, false, Category.FOOD⟩] 1 =
       some ⟨some 1, "Old", "old", ⟨1, 0⟩, false, Category.FOOD⟩ ∧
     Product.deserialize ⟨some 1, "Old", "old", ⟨1, 0⟩, false, Category.FOOD⟩
       [("id", JVal.jnum 999), ("name", JVal.jstr "Hat"),
        ("description", JVal.jstr "red"), ("price", JVal.jstr "12.50"),
        ("available", JVal.jbool true), ("category", JVal.jstr "CLOTHS")] =
       .ok ⟨some 1, "Hat", "red", ⟨1250, 2⟩, true, Category.CLOTHS⟩) ∧
    (updateProducts (some "application/json")
       [("id", JVal.jnum 999), ("name", JVal.jstr "Hat"),
        ("description", JVal.jstr "red"), ("price", JVal.jstr "12.50"),
        ("available", JVal.jbool true), ("category", JVal.jstr "CLOTHS")]
       [⟨some 1, "Old", "old", ⟨1, 0⟩, false, Category.FOOD⟩] 1 =
       (⟨200, .obj ({ (⟨some 1, "Hat", "red", ⟨1250, 2⟩, true,
            Category.CLOTHS⟩ : Product) with id := some 1 }).serialize⟩,
        updateRow [⟨some 1, "Old", "old", ⟨1, 0⟩, false, Category.FOOD⟩]
          { (⟨some 1, "Hat", "red", ⟨1250, 2⟩, true,
             Category.CLOTHS⟩ : Product) with id := some 1 }) ∧
     ({ (⟨some 1, "Hat", "red", ⟨1250, 2⟩, true,
         Category.CLOTHS⟩ : Product) with id := some 1 }).id = some 1 ∧
     getVal ({ (⟨some 1, "Hat", "red", ⟨1250, 2⟩, true,
         Category.CLOTHS⟩ : Product) with id := some 1 }).serialize "id" =
       some (.jnum 1)) :=
  ⟨⟨rfl, by decide, by rfl⟩,
   update_product_path_id_wins (some "application/json")
     [("id", JVal.jnum 999), ("name", JVal.jstr "Hat"),
      ("description", JVal.jstr "red"), ("price", JVal.jstr "12.50"),
      ("available", JVal.jbool true), ("category", JVal.jstr "CLOTHS")]
     [⟨some 1, "Old", "old", ⟨1, 0⟩, false, Category.FOOD⟩] 1
     ⟨some 1, "Old", "old", ⟨1, 0⟩, false, Category.FOOD⟩
     ⟨some 1, "Hat", "red", ⟨1250, 2⟩, true, Category.CLOTHS⟩
     rfl (by decide) (by rfl)⟩

/-- C4: `GET /products` with a non-empty `category` parameter that matches
no declared Category label under the case-insensitive (upper-casing)
lookup, and no (or an empty) `name` parameter, answers 400. -/
theorem list_products_invalid_category_400 (db : List Product)
    (n c a : Option String) (s : String)
    (hn : truthy n = false) (hc : c = some s) (hs : s ≠ "")
    (hbad : parseCategoryName s = none) :
    listProducts n c a db = ⟨400, .msg ("Invalid category: " ++ s)⟩ := by
  subst hc
  have ht : truthy (some s) = true := by simp [truthy, hs]
  simp [listProducts, hn, ht, categoryResp, hbad]

/-- Witness for C4 at the spec's scenario `GET /products?category=bogus`. -/
theorem list_products_invalid_category_400_witness :
    (truthy none = false ∧ (some "bogus" : Option String) = some "bogus" ∧
     "bogus" ≠ "" ∧ parseCategoryName "bogus" = none) ∧
    listProducts none (some "bogus") none [] =
      ⟨400, .msg ("Invalid category: " ++ "bogus")⟩ :=
  ⟨⟨rfl, rfl, by decide, by decide⟩,
   list_products_invalid_category_400 [] none (some "bogus") none "bogus"
     rfl rfl (by decide) (by decide)⟩

/-- C9: `GET /products` applies exactly one filter with precedence
name > category > available > none: a non-empty `name` selects the name
filter regardless of the other parameters; otherwise a non-empty
`category` selects the category branch; otherwise a non-empty `available`
selects the availability filter; otherwise all products are returned.
Every selected branch other than an invalid category answers 200 with the
JSON array of serialized products. -/
theorem list_products_filter_precedence (db : List Product)
    (n c a : Option String) :
    (truthy n = true →
      listProducts n c a db =
        ⟨200, .arr ((findByName db (n.getD "")).map Product.serialize)⟩) ∧
    (truthy n = false → truthy c = true →
      listProducts n c a db = categoryResp db (c.getD "")) ∧
    (truthy n = false → truthy c = false → truthy a = true →
      listProducts n c a db =
        ⟨200, .arr ((findByAvailability db
          (parseAvailableParam (a.getD ""))).map Product.serialize)⟩) ∧
    (truthy n = false → truthy c = false → truthy a = false →
      listProducts n c a db = ⟨200, .arr (db.map Product.serialize)⟩) := by
  refine ⟨fun h1 => ?_, fun h1 h2 => ?_, fun h1 h2 h3 => ?_,
    fun h1 h2 h3 => ?_⟩ <;>
    simp [listProducts, h1, *]

/-- Witness for C9: each of the four precedence branches at a concrete
input. -/
theorem list_products_filter_precedence_witness :
    (truthy (some "Hat") = true ∧
     listProducts (some "Hat") (some "food") (some "yes") [] =
       ⟨200, .arr ((findByName [] ((some "Hat").getD "")).map
         Product.serialize)⟩) ∧
    (truthy (none : Option String) = false ∧ truthy (some "food") = true ∧
     listProducts none (some "food") (some "yes") [] =
       categoryResp [] ((some "food").getD "")) ∧
    (truthy (none : Option String) = false ∧ truthy (some "yes") = true ∧
     listProducts none none (some "yes") [] =
       ⟨200, .arr ((findByAvailability []
         (parseAvailableParam ((some "yes").getD ""))).map
           Product.serialize)⟩) ∧
    (listProducts none none none [] = ⟨200, .arr (([] : List Product).map
      Product.serialize)⟩) :=
  ⟨⟨by decide, (list_products_filter_precedence [] (some "Hat")
      (some "food") (some "yes")).1 (by decide)⟩,
   ⟨rfl, by decide, (list_products_filter_precedence [] none
      (some "food") (some "yes")).2.1 rfl (by decide)⟩,
   ⟨rfl, by decide, (list_products_filter_precedence [] none none
      (some "yes")).2.2.1 rfl rfl (by decide)⟩,
   (list_products_filter_precedence [] none none none).2.2.2 rfl rfl rfl⟩

/-- C10: with no name or category parameter and a non-empty `available`
parameter `v`, the availability filter value is `true` exactly when
lower-casing `v` yields `"true"`, `"yes"` or `"1"`; any other value is
silently coerced to `false` (filtering for unavailable products) and the
response is 200, not a validation error — unlike the strict boolean check
in `deserialize`. -/
theorem list_products_available_truthiness (db : List Product)
    (n c a : Option String) (v : String)
    (hn : truthy n = false) (hc : truthy c = false)
    (ha : a = some v) (hv : v ≠ "") :
    listProducts n c a db =
      ⟨200, .arr ((findByAvailability db
        (parseAvailableParam v)).map Product.serialize)⟩ ∧
    (parseAvailableParam v = true ↔
      (lowerStr v = "true" ∨ lowerStr v = "yes" ∨ lowerStr v = "1")) := by
  subst ha
  have ht : truthy (some v) = true := by simp [truthy, hv]
  constructor
  · simp [listProducts, hn, hc, ht]
  · simp [parseAvailableParam]

/-- Witness for C10 at `available=bogus`: the filter value collapses to
`false` and the request still answers 200. -/
theorem list_products_available_truthiness_witness :
    (truthy (none : Option String) = false ∧ "bogus" ≠ "" ∧
     parseAvailableParam "bogus" = false) ∧
    (listProducts none none (some "bogus") [] =
       ⟨200, .arr ((findByAvailability []
         (parseAvailableParam "bogus")).map Product.serialize)⟩ ∧
     (parseAvailableParam "bogus" = true ↔
       (lowerStr "bogus" = "true" ∨ lowerStr "bogus" = "yes" ∨
        lowerStr "bogus" = "1"))) :=
  ⟨⟨rfl, by decide, by decide⟩,
   list_products_available_truthiness [] none none (some "bogus") "bogus"
     rfl rfl rfl (by decide)⟩
